import Mathlib

/-!
# Verification of the autoscrap content-aggregation pipeline (`src/app.py`)

A shallow embedding of the pure logic of `app.py`: word counting, the
deduplication ledger (`load_posted_urls` / `save_posted_url`), DuckDuckGo
discovery (`fetch_news_from_duckduckgo`), article extraction
(`scrape_article_content`), AI enhancement (`enhance_article_with_ai`),
multi-source aggregation (`get_sufficient_article_content`), the blog-post
composer (`format_blog_post_content`) and the worker loop's consecutive-error
counter (`bot_worker_thread`).

External effects (HTTP fetches, the newspaper3k parser, the Gemini call, the
file system) are modelled as oracle parameters: each network/parse outcome is
an explicit argument, so theorems quantify over every possible response.
Cooperative cancellation (`stop_event_global`) is real-time concurrency and is
modelled as never being set: every embedded run is an uninterrupted run.
Python strings are modelled as Lean `String`s restricted to the ASCII
behaviour of `str.lower` / `\w` / `str.strip`.
-/

namespace Autoscrap

/-- Python whitespace characters recognised by `str.strip()`. -/
def pySpace (c : Char) : Bool :=
  c = ' ' || c = '\t' || c = '\n' || c = '\r' || c = '\x0b' || c = '\x0c'

/-- Python `str.strip()` on a character list: drop whitespace from both ends. -/
def pyStripList (l : List Char) : List Char :=
  ((l.dropWhile pySpace).reverse.dropWhile pySpace).reverse

/-- Python `s.strip()`. -/
def pyStrip (s : String) : String := ⟨pyStripList s.data⟩

/-- Python `str.lower()` on one character (ASCII restriction). -/
def pyLowerChar (c : Char) : Char :=
  if c.isUpper then Char.ofNat (c.toNat + 32) else c

/-- Python `s.lower()` (ASCII restriction). -/
def strToLower (s : String) : String := ⟨s.data.map pyLowerChar⟩

/-- Splits a character list at every occurrence of `sep`, Python
`str.split(sep)` semantics for a one-character separator. -/
def splitOnChar (sep : Char) : List Char → List (List Char)
  | [] => [[]]
  | c :: rest =>
    let r := splitOnChar sep rest
    if c = sep then [] :: r
    else (c :: r.headD []) :: r.tail

/-- Python `s.split(sep)` for a one-character separator. -/
def pySplitOnChar (s : String) (sep : Char) : List String :=
  (splitOnChar sep s.data).map (fun l => ⟨l⟩)

/-- Python `sep.join(l)`. -/
def pyJoin (sep : String) : List String → String
  | [] => ""
  | [x] => x
  | x :: xs => x ++ sep ++ pyJoin sep xs

/-- Python slicing `s[n:]` (drop the first `n` characters). -/
def strDrop (s : String) (n : Nat) : String := ⟨s.data.drop n⟩

/-- Python slicing `s[:-n]` (drop the last `n` characters). -/
def strDropRight (s : String) (n : Nat) : String :=
  ⟨s.data.take (s.data.length - n)⟩

/-- A regex `\w` word character (ASCII restriction): alphanumeric or underscore. -/
def isWordChar (c : Char) : Bool := c.isAlphanum || c = '_'

/-- Counts the maximal runs of word characters in a character list; the boolean
records whether the previous character was a word character.  This is the
number of matches of `\b\w+\b`. -/
def countWordsAux : List Char → Bool → Nat
  | [], _ => 0
  | c :: rest, inWord =>
    if isWordChar c then (if inWord then 0 else 1) + countWordsAux rest true
    else countWordsAux rest false

/-- Function `count_words` (app.py line 58): `len(re.findall(r'\b\w+\b', text.lower()))`;
the empty-text guard returns 0, which coincides with zero matches. -/
def count_words (text_content : String) : Nat :=
  countWordsAux (strToLower text_content).data false

/-- Does the first list start with the second? -/
def listStartsWith : List Char → List Char → Bool
  | _, [] => true
  | [], _ :: _ => false
  | h :: hs, n :: ns => h = n && listStartsWith hs ns

/-- Is `needle` a contiguous sublist of `hay`? -/
def listContainsSub (hay needle : List Char) : Bool :=
  match hay with
  | [] => needle.isEmpty
  | _ :: t => listStartsWith hay needle || listContainsSub t needle

/-- Python substring test `needle in hay`. -/
def strContains (hay needle : String) : Bool :=
  listContainsSub hay.data needle.data

/-- Python `s.startswith(pre)`. -/
def strStartsWith (s pre : String) : Bool :=
  listStartsWith s.data pre.data

/-- Python `s.endswith(suf)`. -/
def strEndsWith (s suf : String) : Bool :=
  listStartsWith s.data.reverse suf.data.reverse

/-- Python `s.count(" ")`: number of space characters. -/
def countSpaces (s : String) : Nat := (s.data.filter (fun c => c = ' ')).length

/-- Splits a character stream into its lines, the way iterating a Python file
object yields lines (terminators removed here; the reader strips them anyway).
`cur` is the reversed accumulator of the current line. -/
def splitLinesAux : List Char → List Char → List (List Char)
  | cur, [] => if cur.isEmpty then [] else [cur.reverse]
  | cur, c :: cs =>
    if c = '\n' then cur.reverse :: splitLinesAux [] cs
    else splitLinesAux (c :: cur) cs

/-- Function `load_posted_urls` (app.py line 76): the ledger file's content is the
`content` string; the result is `set(line.strip() for line in f)`.  The set is
represented as the list of stripped lines, queried by membership. -/
def load_posted_urls (content : String) : List String :=
  (splitLinesAux [] content.data).map (fun l => pyStrip ⟨l⟩)

/-- Function `save_posted_url` (app.py line 85): appends `url + '\n'` to the ledger
file, returning the new file content. -/
def save_posted_url (content url : String) : String :=
  content ++ url ++ "\n"

/-- One article record, the dict built by `scrape_article_content`
(app.py line 272) and mutated only by `enhance_article_with_ai`. -/
structure Article where
  url : String
  title : String
  text : String
  summary : String
  authors : List String
  publish_date : String
  top_image_url : Option String
  all_images : List String
  keywords : List String
  word_count : Nat
  ai_keywords : List String
  ai_meta_description : String
deriving Repr, DecidableEq

/-- A parsed DuckDuckGo anchor (`result__a`): its stripped text and `href`. -/
structure RawHit where
  title : String
  href : Option String
deriving Repr, DecidableEq

/-- A `{'title': ..., 'url': ...}` item returned by discovery. -/
structure DiscoveryHit where
  title : String
  url : String
deriving Repr, DecidableEq

/-- The outcome of newspaper3k download+parse (+nlp) for one URL, as consumed
by `scrape_article_content`.  `none` for the whole record models
`ArticleException` or any other raised error.  `nlp` is `some (keywords,
summary)` when `article.nlp()` succeeds and `none` when it raises. -/
structure RawExtract where
  title : String
  text : String
  top_image : String
  images : List String
  authors : List String
  publish_date : Option String
  nlp : Option (List String × String)
deriving Repr, DecidableEq

/-- The four fields `enhance_article_with_ai` reads from the parsed JSON reply;
each is `none` when the key is absent (`dict.get` falls back to the default). -/
structure AIOutput where
  seo_title : Option String
  enhanced_text : Option String
  seo_keywords : Option (List String)
  meta_description : Option String
deriving Repr, DecidableEq

/-- A YouTube lookup result `{'title': ..., 'videoId': ...}`. -/
structure Video where
  title : String
  videoId : String
deriving Repr, DecidableEq

/-! ## Source Discovery: `fetch_news_from_duckduckgo` (app.py line 187) -/

/-- The fixed topical keyword list (app.py line 210). -/
def tech_keywords : List String :=
  ["ai", "tech", "gadget", "robot", "software", "hardware", "innovation",
   "digital", "crypto", "cyber", "platform", "device", "wearable", "ar", "vr",
   "metaverse", "nvidia", "intel", "amd", "apple", "google", "microsoft",
   "amazon", "tesla", "spacex"]

/-- Predicate `is_relevant` (app.py line 211): some topical keyword occurs in the
lowercased title or in the lowercased URL. -/
def is_relevant (title url : String) : Bool :=
  tech_keywords.any (fun keyword => strContains (strToLower title) keyword) ||
  tech_keywords.any (fun keyword => strContains (strToLower url) keyword)

/-- Processing of one parsed anchor (app.py lines 199-215): URL validity
checks, DDG-redirect resolution (`uddg` models
`parse_qs(...).get('uddg')[0]`; the branch is unreachable because the
enclosing guard already rejects URLs containing "duckduckgo.com"), and the
relevance filter.  Returns the item appended to `news_items`, or `none` when
the anchor is dropped. -/
def ddgKeeps (uddg : String → Option String) (query : String) (r : RawHit) :
    Option DiscoveryHit :=
  match r.href with
  | none => none
  | some url0 =>
    if strStartsWith url0 "http" && !(strContains url0 "duckduckgo.com") then
      let url := if strStartsWith url0 "https://duckduckgo.com/l/" then
                   (uddg url0).getD url0
                 else url0
      if !(r.title.isEmpty) && strStartsWith url "http" then
        if countSpaces (strToLower query) < 3 || is_relevant r.title url then
          some ⟨r.title, url⟩
        else none
      else none
    else none

/-- The `for result in results` loop of `fetch_news_from_duckduckgo`
(app.py lines 198-217), with the `len(news_items) >= num_results` break. -/
def ddgLoop (uddg : String → Option String) (query : String)
    (num_results : Nat) : List RawHit → List DiscoveryHit → List DiscoveryHit
  | [], acc => acc
  | r :: rest, acc =>
    match ddgKeeps uddg query r with
    | none => ddgLoop uddg query num_results rest acc
    | some hit =>
      let acc' := acc ++ [hit]
      if num_results ≤ acc'.length then acc'
      else ddgLoop uddg query num_results rest acc'

/-- Function `fetch_news_from_duckduckgo` (app.py line 187).  `net` is the network
oracle: for a query it yields the parsed `result__a` anchors, or `none` when
the request or the HTML parse raises (both handlers return `[]`). -/
def fetch_news_from_duckduckgo (uddg : String → Option String)
    (net : String → Option (List RawHit)) (query : String)
    (num_results : Nat) : List DiscoveryHit :=
  match net query with
  | none => []
  | some results => ddgLoop uddg query num_results results []

/-! ## Content Extractor: `scrape_article_content` (app.py line 232) -/

/-- The fallback summary (app.py lines 259-261 and 265-267): strip the first
three `'.'`-separated sentences, join the non-empty ones with `'. '`, strip,
and re-append a final period when non-empty. -/
def basicSummary (text : String) : String :=
  let summary_sentences := (pySplitOnChar text '.').take 3
  let summary :=
    pyStrip (pyJoin ". "
      ((summary_sentences.map pyStrip).filter (fun s => !s.isEmpty)))
  if summary.isEmpty then summary else summary ++ "."

/-- The `article.nlp()` region (app.py lines 252-267): on nlp success the
keywords and summary are taken from the article, with the fallback summary
when the nlp summary is missing or shorter than 50 characters; on an nlp
exception the keywords stay `[]` and the fallback summary is used.  Both
fallbacks are guarded by `article.text` being non-empty. -/
def nlpFields (text : String) : Option (List String × String) →
    List String × String
  | some (kws, summ) =>
    let summary := if (summ.isEmpty || summ.length < 50) && !text.isEmpty
                   then basicSummary text else summ
    (kws, summary)
  | none => ([], if !text.isEmpty then basicSummary text else "")

/-- Function `scrape_article_content` (app.py line 232) over the extraction oracle
`extract` (newspaper3k download + parse; `none` models a raised
`ArticleException` or any other error, both handlers return `None`).
Rejects when the title or text is empty or the word count is below 100,
otherwise builds the article dict of line 272 with `url := article_url`. -/
def scrape_article_content (extract : String → Option RawExtract)
    (article_url : String) : Option Article :=
  match extract article_url with
  | none => none
  | some article =>
    let article_word_count := count_words article.text
    if article.title.isEmpty || article.text.isEmpty ||
        article_word_count < 100 then none
    else
      let ks := nlpFields article.text article.nlp
      some { title := article.title, text := article.text, summary := ks.2,
             authors := article.authors,
             publish_date := article.publish_date.getD "N/A",
             top_image_url := if article.top_image.isEmpty then none
                              else some article.top_image,
             all_images := article.images, keywords := ks.1,
             url := article_url, word_count := article_word_count,
             ai_keywords := [], ai_meta_description := "" }

/-! ## Content Enhancer: `enhance_article_with_ai` (app.py line 112) -/

/-- Code-fence stripping of the Gemini reply (app.py lines 158-163). -/
def stripCodeFences (s : String) : String :=
  let t := pyStrip s
  let t := if strStartsWith t "```json" then strDrop t 7 else t
  let t := if strEndsWith t "```" then strDropRight t 3 else t
  pyStrip t

/-- Function `enhance_article_with_ai` (app.py line 112).  `geminiConfigured` models
`_GEMINI_API_KEY_GLOBAL` being set; `callResult` is the outcome of
`model.generate_content(prompt)` (`Except.error` for a raised exception,
otherwise the reply text); `parse` models `json.loads` plus the field reads
(`none` covers `JSONDecodeError` and any non-dict/non-string payload, both of
whose handlers return the input).  On success every replaced text field is
stripped and `word_count` is recomputed from the new body. -/
def enhance_article_with_ai (geminiConfigured : Bool)
    (callResult : Except Unit String) (parse : String → Option AIOutput)
    (article_data : Article) : Article :=
  if !geminiConfigured then article_data
  else
    match callResult with
    | .error _ => article_data
    | .ok responseText =>
      match parse (stripCodeFences responseText) with
      | none => article_data
      | some ai_output =>
        let title := pyStrip (ai_output.seo_title.getD article_data.title)
        let text := pyStrip (ai_output.enhanced_text.getD article_data.text)
        { article_data with
          title := title
          text := text
          ai_keywords := ai_output.seo_keywords.getD []
          ai_meta_description := pyStrip (ai_output.meta_description.getD "")
          word_count := count_words text }

/-! ## Aggregator: `get_sufficient_article_content` (app.py line 287) -/

/-- The `for site_info_related in additional_potential_sites` loop
(app.py lines 312-337).  State: the batch `all_articles_data`, the running
`current_total_words`, and the per-attempt tried set
`related_urls_in_this_batch` (a Python set, queried by membership).  The
second component of the result records the URLs on which
`scrape_article_content` was actually invoked (one entry per call), so that
resource claims about extraction attempts can be stated; it changes nothing
in the computation of the batch. -/
def aggLoop (extract : String → Option RawExtract) (posted : List String)
    (min_post_word_count max_articles_to_combine : Nat) :
    List DiscoveryHit → List Article → Nat → List String → List String →
    List Article × List String
  | [], all_articles_data, _, _, attempts => (all_articles_data, attempts)
  | site :: rest, all_articles_data, current_total_words, tried, attempts =>
    if max_articles_to_combine ≤ all_articles_data.length then
      (all_articles_data, attempts)
    else if min_post_word_count ≤ current_total_words then
      (all_articles_data, attempts)
    else
      let related_url := site.url
      if related_url ∈ posted || related_url ∈ tried then
        aggLoop extract posted min_post_word_count max_articles_to_combine
          rest all_articles_data current_total_words tried attempts
      else
        let tried' := related_url :: tried
        let attempts' := attempts ++ [related_url]
        match scrape_article_content extract related_url with
        | some related_article_data =>
          if !related_article_data.text.isEmpty &&
              !related_article_data.title.isEmpty then
            if related_article_data.word_count < 200 then
              aggLoop extract posted min_post_word_count
                max_articles_to_combine rest all_articles_data
                current_total_words tried' attempts'
            else
              aggLoop extract posted min_post_word_count
                max_articles_to_combine rest
                (all_articles_data ++ [related_article_data])
                (current_total_words + related_article_data.word_count)
                tried' attempts'
          else
            aggLoop extract posted min_post_word_count
              max_articles_to_combine rest all_articles_data
              current_total_words tried' attempts'
        | none =>
          aggLoop extract posted min_post_word_count max_articles_to_combine
            rest all_articles_data current_total_words tried' attempts'

/-- Function `get_sufficient_article_content` (app.py line 287), also returning the
list of candidate URLs on which extraction was attempted.
`initial_article_data.get('ai_keywords', ...)` reads the `ai_keywords` key,
which every record built by this program carries, so the `keywords` fallback
of the `.get` default never fires.  Python's `num_additional_needed <= 0`
check coincides with the truncated `Nat` subtraction being zero. -/
def get_sufficient_article_content_run (uddg : String → Option String)
    (net : String → Option (List RawHit))
    (extract : String → Option RawExtract) (initial_article_data : Article)
    (posted_urls_set : List String)
    (min_post_word_count max_articles_to_combine : Nat) :
    List Article × List String :=
  let all_articles_data := [initial_article_data]
  let current_total_words := initial_article_data.word_count
  if min_post_word_count ≤ current_total_words then (all_articles_data, [])
  else
    let effective_keywords := initial_article_data.ai_keywords
    let search_terms :=
      (effective_keywords.take 2).filter (fun kw => !(pyStrip kw).isEmpty)
    let search_terms := search_terms ++ [initial_article_data.title]
    let related_search_query :=
      pyJoin " " search_terms.eraseDups ++ " latest technology"
    let num_additional_needed :=
      max_articles_to_combine - all_articles_data.length
    if num_additional_needed = 0 then (all_articles_data, [])
    else
      let num_to_fetch_candidates := min (num_additional_needed * 2) 5
      let additional_potential_sites :=
        fetch_news_from_duckduckgo uddg net related_search_query
          num_to_fetch_candidates
      aggLoop extract posted_urls_set min_post_word_count
        max_articles_to_combine additional_potential_sites all_articles_data
        current_total_words [initial_article_data.url] []

/-- The batch returned by `get_sufficient_article_content`. -/
def get_sufficient_article_content (uddg : String → Option String)
    (net : String → Option (List RawHit))
    (extract : String → Option RawExtract) (initial_article_data : Article)
    (posted_urls_set : List String)
    (min_post_word_count max_articles_to_combine : Nat) : List Article :=
  (get_sufficient_article_content_run uddg net extract initial_article_data
    posted_urls_set min_post_word_count max_articles_to_combine).1

/-! ## Worker loop error counter: `bot_worker_thread` (app.py line 636) -/

/-- What one iteration of the `while not stop_event.is_set()` loop did:
whether `post_to_blogger_oauth` succeeded (line 769, which runs
`error_count = 0`), and whether the iteration ended in an exception caught by
the `except` at line 790 (an exception after a successful publish is the same
iteration carrying both flags). -/
structure IterOutcome where
  published : Bool
  raised : Bool
deriving Repr, DecidableEq

/-- The consecutive-error state machine of `bot_worker_thread`
(app.py lines 661-662, 773, 796-800) run over a sequence of iteration
outcomes, starting from counter `error_count`.  Returns the final counter and
whether the loop broke fatally via `error_count >= max_errors_in_row` (7).
Waits and cancellation do not touch the counter and are omitted. -/
def runWorker : List IterOutcome → Nat → Nat × Bool
  | [], error_count => (error_count, false)
  | o :: rest, error_count =>
    let ec1 := if o.published then 0 else error_count
    if o.raised then
      let ec2 := ec1 + 1
      if 7 ≤ ec2 then (ec2, true) else runWorker rest ec2
    else runWorker rest ec1

/-! ## Composer: `format_blog_post_content` (app.py line 370)

The HTML literals reproduce the source f-strings; single quotes inside them
are written with the `\x27` escape. -/

/-- The tuple `valid_image_extensions` (app.py line 386). -/
def valid_image_extensions : List String :=
  [".jpg", ".jpeg", ".png", ".gif", ".webp"]

/-- One additional inline image block (app.py line 399). -/
def additionalImageBlock (main_title img_url : String) : String :=
  "<div style=\"text-align:center; margin: 15px auto;\"><img src=\"" ++
    img_url ++ "\" alt=\"Related image for " ++ main_title ++
    "\" style=\"max-width:75%;height:auto;border-radius:6px;box-shadow: 0 2px 4px rgba(0,0,0,0.08);\"></div>\n"

/-- The second image loop (app.py lines 395-400): stop after 2 added images,
skip icon/logo/avatar/spinner URLs, accumulate blocks. -/
def imgSelectLoop (main_title : String) :
    List String → Nat → String
  | [], _ => ""
  | img_url :: rest, added_image_count =>
    if 2 ≤ added_image_count then ""
    else if strContains (strToLower img_url) "icon" ||
        strContains (strToLower img_url) "logo" ||
        strContains (strToLower img_url) "avatar" ||
        strContains (strToLower img_url) "spinner" then
      imgSelectLoop main_title rest added_image_count
    else
      additionalImageBlock main_title img_url ++
        imgSelectLoop main_title rest (added_image_count + 1)

/-- The additional-images section (app.py lines 383-400): guarded by
`all_images` being non-empty; filters out the top image and non-image-like
extensions, shuffles (`shuffle` models `random.shuffle`), then selects. -/
def additionalImagesHtml (shuffle : List String → List String)
    (primary_article : Article) (main_title : String) : String :=
  if !primary_article.all_images.isEmpty then
    let image_urls_to_display := primary_article.all_images.filter
      (fun img_url =>
        !(primary_article.top_image_url == some img_url) &&
        valid_image_extensions.any (fun ext => strEndsWith (strToLower img_url) ext))
    imgSelectLoop main_title (shuffle image_urls_to_display) 0
  else ""

/-- The stripped first newline-delimited paragraph of a body text
(app.py line 412). -/
def firstParagraph (text : String) : String :=
  pyStrip ((pySplitOnChar text '\n').headD "")

/-- The overview selection (app.py lines 404-415): meta description when
longer than 70 characters, else summary when longer than 100, else the
stripped first newline-delimited paragraph of the body when longer than 100
(then titled "Introduction").  An empty first component means no overview.
The Python truthiness guards on the first two branches are implied by the
length bounds. -/
def overviewSelection (primary_article : Article) : String × String :=
  if !primary_article.ai_meta_description.isEmpty &&
      70 < primary_article.ai_meta_description.length then
    (primary_article.ai_meta_description, "Tech Highlight")
  else if !primary_article.summary.isEmpty &&
      100 < primary_article.summary.length then
    (primary_article.summary, "Tech Highlight")
  else
    let first_para := firstParagraph primary_article.text
    if 100 < first_para.length then (first_para, "Introduction")
    else ("", "Tech Highlight")

/-- The overview block (app.py lines 417-422): render the non-blank lines of
the chosen overview text; emit the block only when both the chosen text and
its rendering are non-empty. -/
def overviewBlockHtml (primary_article : Article) : String :=
  let sel := overviewSelection primary_article
  let overview_text := sel.1
  let overview_title := sel.2
  if !overview_text.isEmpty then
    let formatted_overview := String.join ((pySplitOnChar overview_text '\n').map
      (fun para_sum =>
        if !(pyStrip para_sum).isEmpty then
          "<p style=\x27font-size:1.15em; line-height:1.65; color:#34495e;\x27>"
            ++ pyStrip para_sum ++ "</p>"
        else ""))
    if !formatted_overview.isEmpty then
      "<div style=\x27padding:20px; background-color:#f0f4f8; border-left: 5px solid #007bff; margin-bottom:30px; border-radius:5px;\x27>\n<h3 style=\x27margin-top:0; color:#0056b3; font-size:1.4em;\x27>"
        ++ overview_title ++ "</h3>\n" ++ formatted_overview ++ "\n</div>"
    else ""
  else ""

/-- The related-video embed block (app.py lines 424-432). -/
def videoHtml (video_data : Video) : String :=
  "\n        <h3 style=\"margin-top: 30px; margin-bottom:10px; color:#2c3e50; font-size:1.4em;\">Related Video: "
    ++ video_data.title ++
    "</h3>\n        <div class=\"video-container\" style=\"position: relative; padding-bottom: 56.25%; height: 0; overflow: hidden; max-width: 100%; background: #000; margin-bottom:30px; border-radius:8px; box-shadow: 0 4px 8px rgba(0,0,0,0.1);\">\n            <iframe style=\"position: absolute; top: 0; left: 0; width: 100%; height: 100%;\"\n                    src=\"https://www.youtube.com/embed/"
    ++ video_data.videoId ++
    "\"\n                    frameborder=\"0\" allow=\"accelerometer; autoplay; clipboard-write; encrypted-media; gyroscope; picture-in-picture\" allowfullscreen>\n            </iframe>\n        </div>\n"

/-- One body paragraph (app.py lines 452-459): the first paragraph of the
primary section gets a drop cap when longer than 70 characters. -/
def paraHtml (i para_idx : Nat) (para : String) : String :=
  let style := "line-height:1.75; font-size:1.1em; margin-bottom:1.2em; color:#34495e;"
  if para_idx == 0 && decide (70 < para.length) && i == 0 then
    let first_char := para.take 1
    let rest_of_para := para.drop 1
    "<p style=\"" ++ style ++
      "\"><span style=\"float:left; font-size:3.5em; line-height:0.8em; margin-right:0.07em; margin-top:0.1em; font-weight:bold; color:#3498db;\">"
      ++ first_char ++ "</span>" ++ rest_of_para ++ "</p>\n"
  else
    "<p style=\x27" ++ style ++ "\x27>" ++ para ++ "</p>\n"

/-- Renders a section's paragraph list, tracking the enumeration index. -/
def parasHtml (i : Nat) : Nat → List String → String
  | _, [] => ""
  | para_idx, para :: rest =>
    paraHtml i para_idx para ++ parasHtml i (para_idx + 1) rest

/-- One per-article section (app.py lines 434-466): heading with part
suffixes when the batch has more than one entry, optional focus line,
paragraphs of length > 15 after stripping (placeholder sentence when none),
and the attribution block. -/
def sectionHtml (batch_size : Nat) (main_title : String) (i : Nat)
    (article_data : Article) : String :=
  let section_title_text :=
    if 1 < batch_size then
      "In-Depth Report" ++ ": Part " ++ toString (i + 1) ++
        (if i == 0 then " (Primary Analysis)" else " (Supporting Details)")
    else "In-Depth Report"
  let content :=
    "<h2 style=\x27margin-top: 35px; border-bottom: 3px solid #3498db; padding-bottom: 10px; color:#2980b9; font-size:1.8em;\x27>"
      ++ section_title_text ++ "</h2>\n"
  let content := content ++
    (if 0 < i && !(strToLower article_data.title == strToLower main_title) then
      "<h4 style=\x27color:#555; margin-bottom:15px; font-style:italic; font-size:1.2em;\x27>Focus: "
        ++ article_data.title ++ "</h4>\n"
    else "")
  let current_article_paragraphs :=
    ((pySplitOnChar article_data.text '\n').map pyStrip).filter
      (fun p => !p.isEmpty && decide (15 < p.length))
  let content := content ++
    (if current_article_paragraphs.isEmpty then
      "<p><em>Detailed textual content for this section was not available or was minimal.</em></p>\n"
    else parasHtml i 0 current_article_paragraphs)
  let meta_html :=
    (if !article_data.authors.isEmpty then
      "<strong>Author(s) (Original Source):</strong> " ++
        pyJoin ", " article_data.authors ++ "<br>"
    else "") ++
    (if !article_data.publish_date.isEmpty &&
        !(article_data.publish_date == "N/A") then
      "<strong>Original Publish Date:</strong> " ++ article_data.publish_date
        ++ "<br>"
    else "")
  content ++
    (if !meta_html.isEmpty then
      "<div style=\x27font-size:0.9em; color:#7f8c8d; margin-top:20px; padding:12px; border:1px solid #ecf0f1; background-color:#fdfefe; border-radius:4px;\x27>"
        ++ meta_html ++ "</div>\n"
    else "")

/-- The `for i, article_data in enumerate(...)` loop (app.py line 434). -/
def sectionsHtml (batch_size : Nat) (main_title : String) :
    Nat → List Article → String
  | _, [] => ""
  | i, article_data :: rest =>
    sectionHtml batch_size main_title i article_data ++
      sectionsHtml batch_size main_title (i + 1) rest

/-- Function `format_blog_post_content` (app.py line 370): the empty batch
yields the empty string; otherwise the title block, optional top image
(`None` and the empty string are both falsy), additional images, overview,
optional video embed, one section per batch entry, and the closing
disclaimer with the summed word count.  The `title` key is always present on
records built by this program, so the "Untitled Tech Article" default is
never taken. -/
def format_blog_post_content (shuffle : List String → List String)
    (list_of_article_data : List Article) (video_data : Option Video) :
    String :=
  match list_of_article_data with
  | [] => ""
  | primary_article :: _ =>
    let main_title := primary_article.title
    let content :=
      "<h1 style=\x27text-align:center; margin-bottom:25px; font-size:2.2em; color:#2c3e50;\x27>"
        ++ main_title ++ "</h1>\n"
    let content := content ++
      (match primary_article.top_image_url with
       | none => ""
       | some img =>
         if img.isEmpty then ""
         else
           "<div style=\"text-align:center; margin-bottom:20px;\"><img src=\""
             ++ img ++ "\" alt=\"" ++ main_title ++
             "\" style=\"max-width:90%;height:auto;border-radius:8px;box-shadow: 0 4px 8px rgba(0,0,0,0.1);\"></div>\n")
    let additional_images_html :=
      additionalImagesHtml shuffle primary_article main_title
    let content := content ++
      (if !additional_images_html.isEmpty then
        "<div class=\x27additional-images-section\x27 style=\x27margin-bottom:25px;\x27>"
          ++ additional_images_html ++ "</div>"
      else "")
    let content := content ++ overviewBlockHtml primary_article
    let content := content ++
      (match video_data with
       | none => ""
       | some video => videoHtml video)
    let content := content ++
      sectionsHtml list_of_article_data.length main_title 0
        list_of_article_data
    let total_words_in_post :=
      (list_of_article_data.map (fun ad => ad.word_count)).sum
    content ++
      "<hr style=\x27margin-top:40px; margin-bottom:20px; border:0; border-top:1px solid #bdc3c7;\x27>"
      ++ "<p style=\x27font-size:0.9em; color:#95a5a6; text-align:center;\x27><em>Disclaimer: This content is automatically curated and significantly enhanced by AI for thematic focus and readability. It is compiled from various online news reports for comprehensiveness. While efforts are made for accuracy, information can change rapidly. This post contains approximately "
      ++ toString total_words_in_post ++ " words.</em></p>"

/-! ## Spec-modelled predicate and concrete sample inputs -/

/-- Modelled from the spec: a query is "broad" when it has fewer than 3
space-separated terms.  Stated only to compare with the code's actual test
(`query.lower().count(" ") < 3`, i.e. fewer than 3 space characters). -/
def specBroadQuery (query : String) : Bool :=
  decide ((pySplitOnChar query ' ').length < 3)

/-- A concrete article record used to instantiate theorems. -/
def sampleArticle : Article :=
  { url := "http://example.com/a", title := "Sample", text := "alpha beta",
    summary := "", authors := [], publish_date := "N/A", top_image_url := none,
    all_images := [], keywords := [], word_count := 2, ai_keywords := [],
    ai_meta_description := "" }

/-- A concrete article whose word count already meets a 1500-word target. -/
def sampleArticle1800 : Article :=
  { sampleArticle with url := "http://example.com/long", word_count := 1800 }

/-- A 100-word body text. -/
def words100 : String := pyJoin " " (List.replicate 100 "lean")

/-- A concrete successful extraction outcome whose nlp summary is short. -/
def rawSample : RawExtract :=
  { title := "Title", text := words100, top_image := "", images := [],
    authors := [], publish_date := none, nlp := some (["k"], "short") }

/-- The article `scrape_article_content` builds from `rawSample`. -/
def scrapedSample : Article :=
  { url := "http://example.com/s", title := "Title", text := words100,
    summary := basicSummary words100, authors := [], publish_date := "N/A",
    top_image_url := none, all_images := [], keywords := ["k"],
    word_count := count_words words100, ai_keywords := [],
    ai_meta_description := "" }

/-- An article whose AI meta description exceeds 70 characters. -/
def metaArticle : Article :=
  { sampleArticle with ai_meta_description :=
      "A compelling meta description of more than seventy characters in total length." }

/-- An article whose summary exceeds 100 characters (and whose AI meta
description does not exceed 70). -/
def summaryArticle : Article :=
  { sampleArticle with summary :=
      "A sufficiently long human readable summary sentence that comfortably exceeds the one hundred character bar." }

/-- An article whose body's first paragraph exceeds 100 characters (and whose
meta description and summary do not qualify). -/
def introArticle : Article :=
  { sampleArticle with text :=
      "A first paragraph of body text that is long enough to clear the one hundred character threshold easily today.\nsecond paragraph" }

/-! ## Theorems -/

/-- C10: the Composer is total on the degenerate input: applied to an empty
batch (with or without related media, for any shuffle) it returns the empty
string rather than failing. -/
theorem c10_composer_empty_batch (shuffle : List String → List String)
    (video_data : Option Video) :
    format_blog_post_content shuffle [] video_data = "" := rfl

/-- C4: when the primary article's word count already meets `min_words`, the
Aggregator returns a batch of exactly the unmodified primary, for every
discovery/extraction oracle (so no discovery response and no extraction
response can influence the result). -/
theorem c4_aggregator_short_circuit (uddg : String → Option String)
    (net : String → Option (List RawHit))
    (extract : String → Option RawExtract) (initial_article_data : Article)
    (posted_urls_set : List String)
    (min_post_word_count max_articles_to_combine : Nat)
    (h : min_post_word_count ≤ initial_article_data.word_count) :
    get_sufficient_article_content uddg net extract initial_article_data
      posted_urls_set min_post_word_count max_articles_to_combine
      = [initial_article_data] := by
  simp [get_sufficient_article_content, get_sufficient_article_content_run, h]

/-- Witness for C4: a primary of 1800 words against a 1500-word target is
returned as a batch of one. -/
theorem c4_aggregator_short_circuit_witness :
    get_sufficient_article_content (fun _ => none) (fun _ => none)
      (fun _ => none) sampleArticle1800 [] 1500 3 = [sampleArticle1800] :=
  c4_aggregator_short_circuit _ _ _ _ _ _ _ (by decide)

/-- C3 helper: a fatal break of the worker loop from a counter below the
threshold ends with the counter at exactly 7 (increments are by one, and the
loop breaks at the first check of 7 or more). -/
theorem runWorker_fatal_eq (outs : List IterOutcome) :
    ∀ ec : Nat, ec < 7 → (runWorker outs ec).2 = true →
      (runWorker outs ec).1 = 7 := by
  induction outs with
  | nil => intro ec _ h; simp [runWorker] at h
  | cons o rest ih =>
    intro ec hlt h
    simp only [runWorker] at h ⊢
    have hec1 : (if o.published = true then 0 else ec) < 7 := by
      split <;> omega
    by_cases hr : o.raised = true
    · simp only [if_pos hr] at h ⊢
      by_cases h7 : 7 ≤ (if o.published = true then 0 else ec) + 1
      · simp only [if_pos h7] at h ⊢
        show (if o.published = true then 0 else ec) + 1 = 7
        omega
      · simp only [if_neg h7] at h ⊢
        exact ih _ (by omega) h
    · simp only [if_neg hr] at h ⊢
      exact ih _ hec1 h

/-- C3: the worker loop's consecutive-error state machine: a run that breaks
fatally from a counter below 7 ends with the counter exactly 7; an iteration
with a successful publish and no exception continues with the counter reset
to 0; an iteration ending in an exception (without a publish) continues with
the counter incremented by exactly 1 while the result stays below 7, and
from counter 6 such an iteration stops the loop permanently at exactly 7, so
no iteration ever starts with the counter at 7 or more. -/
theorem c3_worker_error_counter :
    (∀ (outs : List IterOutcome) (ec : Nat), ec < 7 →
      (runWorker outs ec).2 = true → (runWorker outs ec).1 = 7) ∧
    (∀ (o : IterOutcome) (rest : List IterOutcome) (ec : Nat),
      o.published = true → o.raised = false →
      runWorker (o :: rest) ec = runWorker rest 0) ∧
    (∀ (o : IterOutcome) (rest : List IterOutcome) (ec : Nat),
      o.published = false → o.raised = true → ec + 1 < 7 →
      runWorker (o :: rest) ec = runWorker rest (ec + 1)) ∧
    (∀ (o : IterOutcome) (rest : List IterOutcome),
      o.published = false → o.raised = true →
      runWorker (o :: rest) 6 = (7, true)) := by
  refine ⟨runWorker_fatal_eq, ?_, ?_, ?_⟩
  · intro o rest ec hp hr
    simp [runWorker, hp, hr]
  · intro o rest ec hp hr hlt
    simp only [runWorker, hp, hr]
    rw [if_pos trivial, if_neg Bool.false_ne_true, if_neg (by omega)]
  · intro o rest hp hr
    simp [runWorker, hp, hr]

/-- Witness for C3: seven straight failing iterations stop at exactly 7; a
publishing iteration resets to 0; a failing iteration steps 3 to 4; a
failing iteration from 6 is fatal. -/
theorem c3_worker_error_counter_witness :
    (runWorker [⟨false, true⟩, ⟨false, true⟩, ⟨false, true⟩, ⟨false, true⟩,
      ⟨false, true⟩, ⟨false, true⟩, ⟨false, true⟩] 0).1 = 7 ∧
    runWorker [⟨true, false⟩] 5 = runWorker [] 0 ∧
    runWorker [⟨false, true⟩] 3 = runWorker [] 4 ∧
    runWorker [⟨false, true⟩] 6 = (7, true) :=
  ⟨c3_worker_error_counter.1 _ 0 (by decide) (by decide),
   c3_worker_error_counter.2.1 ⟨true, false⟩ [] 5 rfl rfl,
   c3_worker_error_counter.2.2.1 ⟨false, true⟩ [] 3 rfl rfl (by decide),
   c3_worker_error_counter.2.2.2 ⟨false, true⟩ [] rfl rfl⟩

/-- C6: the Enhancer degrades to the identity: with the generative-text
capability unconfigured, or when the call raises, or when the reply fails
JSON parsing, the input record is returned unchanged (and, being a total
function, no exception propagates). -/
theorem c6_enhancer_error_handling :
    (∀ (call : Except Unit String) (parse : String → Option AIOutput)
      (art : Article), enhance_article_with_ai false call parse art = art) ∧
    (∀ (e : Unit) (parse : String → Option AIOutput) (art : Article),
      enhance_article_with_ai true (.error e) parse art = art) ∧
    (∀ (s : String) (parse : String → Option AIOutput) (art : Article),
      parse (stripCodeFences s) = none →
      enhance_article_with_ai true (.ok s) parse art = art) := by
  refine ⟨fun call parse art => rfl, fun e parse art => rfl, ?_⟩
  intro s parse art h
  simp [enhance_article_with_ai, h]

/-- Witness for C6: a malformed (non-JSON) payload leaves a concrete article
unchanged. -/
theorem c6_enhancer_error_handling_witness :
    enhance_article_with_ai true (.ok "this is not json") (fun _ => none)
      sampleArticle = sampleArticle :=
  c6_enhancer_error_handling.2.2 "this is not json" (fun _ => none)
    sampleArticle rfl

/-- C2: `word_count` is never stale: every record produced by the Extractor
carries the word count of its body, and the Enhancer preserves this
invariant — in particular it recomputes `word_count` from the new body when
it replaces the text. -/
theorem c2_word_count_invariant :
    (∀ (extract : String → Option RawExtract) (u : String) (a : Article),
      scrape_article_content extract u = some a →
      a.word_count = count_words a.text) ∧
    (∀ (g : Bool) (call : Except Unit String)
      (parse : String → Option AIOutput) (art : Article),
      art.word_count = count_words art.text →
      (enhance_article_with_ai g call parse art).word_count =
        count_words (enhance_article_with_ai g call parse art).text) := by
  constructor
  · intro extract u a h
    unfold scrape_article_content at h
    cases hx : extract u with
    | none => rw [hx] at h; simp at h
    | some raw =>
      rw [hx] at h
      dsimp only at h
      split at h
      · simp at h
      · rw [Option.some.injEq] at h
        subst h
        rfl
  · intro g call parse art hart
    cases g with
    | false => exact hart
    | true =>
      cases call with
      | error e => exact hart
      | ok s =>
        cases hp : parse (stripCodeFences s) with
        | none =>
          simp only [enhance_article_with_ai, Bool.not_true, hp]
          exact hart
        | some ai =>
          simp [enhance_article_with_ai, hp]

set_option maxRecDepth 8192 in
/-- Witness for C2: a concrete 100-word extraction carries word count 100,
and a failed enhancement of a consistent record stays consistent. -/
theorem c2_word_count_invariant_witness :
    scrapedSample.word_count = count_words scrapedSample.text ∧
    (enhance_article_with_ai true (.ok "oops") (fun _ => none)
        sampleArticle).word_count =
      count_words (enhance_article_with_ai true (.ok "oops") (fun _ => none)
        sampleArticle).text :=
  ⟨c2_word_count_invariant.1 (fun _ => some rawSample) "http://example.com/s"
      scrapedSample (by decide),
   c2_word_count_invariant.2 true (.ok "oops") (fun _ => none) sampleArticle
      (by decide)⟩

/-- C7: the Composer's overview selection prefers the AI meta description
when longer than 70 characters, else the summary when longer than 100, else
the stripped first newline-delimited paragraph of the body when longer than
100 (then titled "Introduction", otherwise "Tech Highlight"), and the
overview block is omitted entirely when none of the three qualify. -/
theorem c7_composer_overview :
    (∀ a : Article, 70 < a.ai_meta_description.length →
      overviewSelection a = (a.ai_meta_description, "Tech Highlight")) ∧
    (∀ a : Article, a.ai_meta_description.length ≤ 70 →
      100 < a.summary.length →
      overviewSelection a = (a.summary, "Tech Highlight")) ∧
    (∀ a : Article, a.ai_meta_description.length ≤ 70 →
      a.summary.length ≤ 100 →
      100 < (firstParagraph a.text).length →
      overviewSelection a = (firstParagraph a.text, "Introduction")) ∧
    (∀ a : Article, a.ai_meta_description.length ≤ 70 →
      a.summary.length ≤ 100 →
      (firstParagraph a.text).length ≤ 100 →
      overviewSelection a = ("", "Tech Highlight") ∧
        overviewBlockHtml a = "") := by
  have hne : ∀ (s : String) (n : Nat), n < s.length → s.isEmpty = false := by
    intro s n hn
    cases he : s.isEmpty
    · rfl
    · rw [(String.isEmpty_iff s).mp he] at hn
      simp at hn
  refine ⟨?_, ?_, ?_, ?_⟩
  · intro a h
    simp [overviewSelection, hne _ _ h, h]
  · intro a hm hs
    simp [overviewSelection, hne _ _ hs, hs, Nat.not_lt.mpr hm]
  · intro a hm hs hp
    simp [overviewSelection, Nat.not_lt.mpr hm, Nat.not_lt.mpr hs, hp]
  · intro a hm hs hp
    have hsel : overviewSelection a = ("", "Tech Highlight") := by
      simp [overviewSelection, Nat.not_lt.mpr hm, Nat.not_lt.mpr hs,
        Nat.not_lt.mpr hp]
    refine ⟨hsel, ?_⟩
    unfold overviewBlockHtml
    rw [hsel]
    rfl

/-- Witness for C7: each of the four selection regimes at a concrete
article. -/
theorem c7_composer_overview_witness :
    overviewSelection metaArticle =
      (metaArticle.ai_meta_description, "Tech Highlight") ∧
    overviewSelection summaryArticle =
      (summaryArticle.summary, "Tech Highlight") ∧
    overviewSelection introArticle =
      (firstParagraph introArticle.text, "Introduction") ∧
    (overviewSelection sampleArticle = ("", "Tech Highlight") ∧
      overviewBlockHtml sampleArticle = "") :=
  ⟨c7_composer_overview.1 metaArticle (by decide),
   c7_composer_overview.2.1 summaryArticle (by decide) (by decide),
   c7_composer_overview.2.2.1 introArticle (by decide) (by decide)
     (by decide),
   c7_composer_overview.2.2.2 sampleArticle (by decide) (by decide)
     (by decide)⟩

/-- C1 helper: a scraped record carries the URL it was scraped from
(app.py line 277, `'url': article_url`). -/
theorem scrape_article_content_url (extract : String → Option RawExtract)
    (u : String) (a : Article)
    (h : scrape_article_content extract u = some a) : a.url = u := by
  unfold scrape_article_content at h
  cases hx : extract u with
  | none => rw [hx] at h; simp at h
  | some raw =>
    rw [hx] at h
    dsimp only at h
    split at h
    · simp at h
    · rw [Option.some.injEq] at h
      subst h
      rfl

/-- C1 helper: the candidate loop of the Aggregator preserves the batch
invariants: the batch only grows at the tail, its URLs stay pairwise
distinct, and every member's URL is outside the ledger or equal to the
distinguished URL `u0` — given that every batch URL is in the tried set,
because a candidate is skipped when its URL is already tried and is added to
the tried set before extraction. -/
theorem aggLoop_batch_inv (extract : String → Option RawExtract)
    (posted : List String) (minW maxA : Nat) (u0 : String) :
    ∀ (sites : List DiscoveryHit) (all : List Article) (total : Nat)
      (tried attempts : List String),
      (∀ a ∈ all, a.url ∈ tried) →
      (all.map Article.url).Nodup →
      (∀ a ∈ all, a.url ∉ posted ∨ a.url = u0) →
      (∃ ext,
        (aggLoop extract posted minW maxA sites all total tried attempts).1
          = all ++ ext) ∧
      ((aggLoop extract posted minW maxA sites all total tried
          attempts).1.map Article.url).Nodup ∧
      (∀ a ∈ (aggLoop extract posted minW maxA sites all total tried
          attempts).1, a.url ∉ posted ∨ a.url = u0) := by
  intro sites
  induction sites with
  | nil =>
    intro all total tried attempts _ h2 h3
    exact ⟨⟨[], (List.append_nil all).symm⟩, h2, h3⟩
  | cons site rest ih =>
    intro all total tried attempts h1 h2 h3
    simp only [aggLoop]
    split
    · exact ⟨⟨[], (List.append_nil all).symm⟩, h2, h3⟩
    split
    · exact ⟨⟨[], (List.append_nil all).symm⟩, h2, h3⟩
    split
    · exact ih all total tried attempts h1 h2 h3
    rename_i hmemb
    have hnp : site.url ∉ posted ∧ site.url ∉ tried := by
      constructor <;> intro hc <;> apply hmemb <;> simp [hc]
    have h1' : ∀ a ∈ all, a.url ∈ site.url :: tried :=
      fun a ha => List.mem_cons_of_mem _ (h1 a ha)
    cases hscr : scrape_article_content extract site.url with
    | none => exact ih all total (site.url :: tried) _ h1' h2 h3
    | some rel =>
      have hurl : rel.url = site.url := scrape_article_content_url _ _ _ hscr
      simp only [hscr]
      split
      · split
        · exact ih all total (site.url :: tried) _ h1' h2 h3
        · -- the candidate is appended to the batch
          have hnotin : site.url ∉ all.map Article.url := by
            intro hc
            obtain ⟨a, ha, hau⟩ := List.mem_map.mp hc
            exact hnp.2 (hau ▸ h1 a ha)
          have h1'' : ∀ a ∈ all ++ [rel], a.url ∈ site.url :: tried := by
            intro a ha
            rcases List.mem_append.mp ha with ha | ha
            · exact h1' a ha
            · simp at ha
              subst ha
              rw [hurl]
              exact List.mem_cons_self _ _
          have h2'' : ((all ++ [rel]).map Article.url).Nodup := by
            rw [List.map_append, List.nodup_append]
            refine ⟨h2, by simp, ?_⟩
            intro x hx
            simp only [List.map_cons, List.map_nil, List.mem_singleton]
            intro hx1
            subst hx1
            rw [hurl] at hx
            exact hnotin hx
          have h3'' : ∀ a ∈ all ++ [rel], a.url ∉ posted ∨ a.url = u0 := by
            intro a ha
            rcases List.mem_append.mp ha with ha | ha
            · exact h3 a ha
            · simp at ha
              subst ha
              rw [hurl]
              exact Or.inl hnp.1
          obtain ⟨⟨ext, hext⟩, hnd, hpo⟩ :=
            ih (all ++ [rel]) (total + rel.word_count) (site.url :: tried) _
              h1'' h2'' h3''
          exact ⟨⟨[rel] ++ ext, by rw [hext, List.append_assoc]⟩, hnd, hpo⟩
      · exact ih all total (site.url :: tried) _ h1' h2 h3

/-- C1: for every ledger, target and candidate/extraction responses, the
batch returned by the Aggregator starts with the primary, contains no two
articles with the same URL, and contains no article whose URL is in the
ledger other than possibly the primary itself. -/
theorem c1_aggregator_no_duplicates (uddg : String → Option String)
    (net : String → Option (List RawHit))
    (extract : String → Option RawExtract) (initial_article_data : Article)
    (posted_urls_set : List String)
    (min_post_word_count max_articles_to_combine : Nat) :
    (get_sufficient_article_content uddg net extract initial_article_data
        posted_urls_set min_post_word_count
        max_articles_to_combine).head? = some initial_article_data ∧
    ((get_sufficient_article_content uddg net extract initial_article_data
        posted_urls_set min_post_word_count
        max_articles_to_combine).map Article.url).Nodup ∧
    (∀ a ∈ get_sufficient_article_content uddg net extract
        initial_article_data posted_urls_set min_post_word_count
        max_articles_to_combine,
      a.url ∉ posted_urls_set ∨ a.url = initial_article_data.url) := by
  unfold get_sufficient_article_content get_sufficient_article_content_run
  dsimp only
  split
  · refine ⟨rfl, by simp, ?_⟩
    intro a ha
    simp at ha
    subst ha
    exact Or.inr rfl
  split
  · refine ⟨rfl, by simp, ?_⟩
    intro a ha
    simp at ha
    subst ha
    exact Or.inr rfl
  · have h3 : ∀ a ∈ [initial_article_data],
        a.url ∉ posted_urls_set ∨ a.url = initial_article_data.url := by
      intro a ha
      simp at ha
      subst ha
      exact Or.inr rfl
    obtain ⟨⟨ext, hext⟩, hnd, hpo⟩ :=
      aggLoop_batch_inv extract posted_urls_set min_post_word_count
        max_articles_to_combine initial_article_data.url _
        [initial_article_data] initial_article_data.word_count
        [initial_article_data.url] [] (by simp) (by simp) h3
    refine ⟨?_, hnd, hpo⟩
    rw [hext, List.singleton_append]
    rfl

/-- Witness for C1: with oracles that discover nothing, the batch for a
concrete short primary is the primary alone, and its one member satisfies
the ledger property. -/
theorem c1_aggregator_no_duplicates_witness :
    sampleArticle.url ∉ ["http://example.com/other"] ∨
      sampleArticle.url = sampleArticle.url :=
  (c1_aggregator_no_duplicates (fun _ => none) (fun _ => none) (fun _ => none)
      sampleArticle ["http://example.com/other"] 1500 3).2.2 sampleArticle
    (by decide)

/-- C5 helper: the discovery loop collects at most `num_results` items once
fewer than `num_results` are accumulated (the loop breaks as soon as the
count reaches `num_results`). -/
theorem ddgLoop_length_le (uddg : String → Option String) (query : String)
    (num_results : Nat) :
    ∀ (results : List RawHit) (acc : List DiscoveryHit),
      acc.length < num_results →
      (ddgLoop uddg query num_results results acc).length ≤ num_results := by
  intro results
  induction results with
  | nil => intro acc h; exact Nat.le_of_lt h
  | cons r rest ih =>
    intro acc h
    simp only [ddgLoop]
    cases hk : ddgKeeps uddg query r with
    | none => exact ih acc h
    | some hit =>
      dsimp only
      split
      · simp only [List.length_append, List.length_singleton]
        omega
      · rename_i h7
        refine ih _ ?_
        simp only [List.length_append, List.length_singleton] at h7 ⊢
        omega

/-- C5 helper: discovery returns at most `num_results` hits for a positive
`num_results`, regardless of how many anchors the network response holds. -/
theorem fetch_news_length_le (uddg : String → Option String)
    (net : String → Option (List RawHit)) (query : String)
    (num_results : Nat) (h : 0 < num_results) :
    (fetch_news_from_duckduckgo uddg net query num_results).length
      ≤ num_results := by
  unfold fetch_news_from_duckduckgo
  cases net query with
  | none => simp only [List.length_nil]; omega
  | some results =>
    exact ddgLoop_length_le uddg query num_results results []
      (by simpa using h)

/-- C5 helper: each candidate adds at most one extraction attempt. -/
theorem aggLoop_attempts_le (extract : String → Option RawExtract)
    (posted : List String) (minW maxA : Nat) :
    ∀ (sites : List DiscoveryHit) (all : List Article) (total : Nat)
      (tried attempts : List String),
      (aggLoop extract posted minW maxA sites all total tried
        attempts).2.length ≤ attempts.length + sites.length := by
  intro sites
  induction sites with
  | nil => intro all total tried attempts; simp [aggLoop]
  | cons site rest ih =>
    intro all total tried attempts
    simp only [aggLoop, List.length_cons]
    split
    · simp
    split
    · simp
    split
    · exact le_trans (ih all total tried attempts) (by omega)
    cases hscr : scrape_article_content extract site.url with
    | none =>
      refine le_trans (ih all total _ (attempts ++ [site.url])) ?_
      simp only [List.length_append, List.length_singleton]
      omega
    | some rel =>
      dsimp only
      split
      · split
        · refine le_trans (ih all total _ (attempts ++ [site.url])) ?_
          simp only [List.length_append, List.length_singleton]
          omega
        · refine le_trans (ih _ _ _ (attempts ++ [site.url])) ?_
          simp only [List.length_append, List.length_singleton]
          omega
      · refine le_trans (ih all total _ (attempts ++ [site.url])) ?_
        simp only [List.length_append, List.length_singleton]
        omega

/-- C5 helper: the attempted URLs are pairwise distinct — a URL is attempted
only when outside the tried set, and every attempted URL is in the tried
set. -/
theorem aggLoop_attempts_nodup (extract : String → Option RawExtract)
    (posted : List String) (minW maxA : Nat) :
    ∀ (sites : List DiscoveryHit) (all : List Article) (total : Nat)
      (tried attempts : List String),
      attempts.Nodup → (∀ u ∈ attempts, u ∈ tried) →
      (aggLoop extract posted minW maxA sites all total tried
        attempts).2.Nodup := by
  intro sites
  induction sites with
  | nil => intro all total tried attempts h1 _; simpa [aggLoop] using h1
  | cons site rest ih =>
    intro all total tried attempts h1 h2
    simp only [aggLoop]
    split
    · exact h1
    split
    · exact h1
    split
    · exact ih all total tried attempts h1 h2
    rename_i hmemb
    have hnt : site.url ∉ tried := by
      intro hc
      exact hmemb (by simp [hc])
    have h1' : (attempts ++ [site.url]).Nodup := by
      rw [List.nodup_append]
      refine ⟨h1, by simp, ?_⟩
      intro x hx
      simp only [List.mem_singleton]
      intro hx1
      subst hx1
      exact hnt (h2 _ hx)
    have h2' : ∀ u ∈ attempts ++ [site.url], u ∈ site.url :: tried := by
      intro u hu
      rcases List.mem_append.mp hu with hu | hu
      · exact List.mem_cons_of_mem _ (h2 u hu)
      · simp at hu
        subst hu
        exact List.mem_cons_self _ _
    cases hscr : scrape_article_content extract site.url with
    | none => exact ih all total _ _ h1' h2'
    | some rel =>
      dsimp only
      split
      · split
        · exact ih all total _ _ h1' h2'
        · exact ih _ _ _ _ h1' h2'
      · exact ih all total _ _ h1' h2'

/-- C5: for every primary, ledger, `min_words` and `max_articles ≥ 1`, and
for every discovery/extraction response, the Aggregator performs at most
`min(2*(max_articles-1), 5)` candidate extraction attempts, each on a
distinct candidate URL — so with the primary's own extraction it stays
within `min(2*(max_articles-1), 5) + 1` total attempts. -/
theorem c5_aggregator_bounded_attempts (uddg : String → Option String)
    (net : String → Option (List RawHit))
    (extract : String → Option RawExtract) (initial_article_data : Article)
    (posted_urls_set : List String) (min_post_word_count : Nat)
    (max_articles_to_combine : Nat) (h : 1 ≤ max_articles_to_combine) :
    (get_sufficient_article_content_run uddg net extract initial_article_data
        posted_urls_set min_post_word_count
        max_articles_to_combine).2.length
      ≤ min (2 * (max_articles_to_combine - 1)) 5 ∧
    (get_sufficient_article_content_run uddg net extract initial_article_data
        posted_urls_set min_post_word_count
        max_articles_to_combine).2.Nodup := by
  unfold get_sufficient_article_content_run
  dsimp only
  split
  · simp
  split
  · simp
  · rename_i hlt hne
    constructor
    · simp only [List.length_singleton] at hne
      refine le_trans (aggLoop_attempts_le extract posted_urls_set
        min_post_word_count max_articles_to_combine _ _ _ _ []) ?_
      simp only [List.length_nil, List.length_singleton, Nat.zero_add]
      have hfet := fetch_news_length_le uddg net
        (pyJoin " "
            (List.filter (fun kw => !(pyStrip kw).isEmpty)
                (List.take 2 initial_article_data.ai_keywords) ++
              [initial_article_data.title]).eraseDups ++ " latest technology")
        ((max_articles_to_combine - 1) * 2 ⊓ 5) (by omega)
      omega
    · exact aggLoop_attempts_nodup extract posted_urls_set
        min_post_word_count max_articles_to_combine _ _ _ _ []
        (by simp) (by simp)

/-- Witness for C5: a concrete run with `max_articles = 3` stays within
`min(4,5)` attempts. -/
theorem c5_aggregator_bounded_attempts_witness :
    (get_sufficient_article_content_run (fun _ => none) (fun _ => none)
        (fun _ => none) sampleArticle [] 1500 3).2.length
      ≤ min (2 * (3 - 1)) 5 ∧
    (get_sufficient_article_content_run (fun _ => none) (fun _ => none)
        (fun _ => none) sampleArticle [] 1500 3).2.Nodup :=
  c5_aggregator_bounded_attempts (fun _ => none) (fun _ => none)
    (fun _ => none) sampleArticle [] 1500 3 (by decide)

/-- C8 helper: `listStartsWith` decides the prefix relation. -/
theorem listStartsWith_iff (hay pre : List Char) :
    listStartsWith hay pre = true ↔ pre <+: hay := by
  induction pre generalizing hay with
  | nil => simp [listStartsWith]
  | cons n ns ih =>
    cases hay with
    | nil => simp [listStartsWith]
    | cons h hs =>
      simp only [listStartsWith, Bool.and_eq_true, decide_eq_true_eq,
        List.cons_prefix_cons, ih]
      exact and_congr_left (fun _ => eq_comm)

/-- C8 helper: `listContainsSub` decides the infix relation. -/
theorem listContainsSub_iff (hay needle : List Char) :
    listContainsSub hay needle = true ↔ needle <:+: hay := by
  induction hay with
  | nil =>
    simp [listContainsSub, List.isEmpty_iff]
  | cons h t ih =>
    simp only [listContainsSub, Bool.or_eq_true, listStartsWith_iff, ih,
      List.infix_cons_iff]

/-- C8 helper: a substring of a prefix of `s` is a substring of `s`. -/
theorem strContains_of_prefix (s pre needle : String)
    (h1 : strStartsWith s pre = true) (h2 : strContains pre needle = true) :
    strContains s needle = true := by
  rw [strContains, listContainsSub_iff] at h2 ⊢
  rw [strStartsWith, listStartsWith_iff] at h1
  exact h2.trans h1.isInfix

/-- C8 helper: a kept anchor passed the relevance filter — the code's broad
test (`query.lower().count(" ") < 3`, fewer than 3 space characters) or a
topical keyword in the kept title or URL. -/
theorem ddgKeeps_filter (uddg : String → Option String) (query : String)
    (r : RawHit) (item : DiscoveryHit)
    (h : ddgKeeps uddg query r = some item) :
    countSpaces (strToLower query) < 3 ∨
      is_relevant item.title item.url = true := by
  unfold ddgKeeps at h
  cases hr : r.href with
  | none => rw [hr] at h; simp at h
  | some url0 =>
    rw [hr] at h
    dsimp only at h
    split at h
    · split at h <;>
      · split at h
        · split at h
          · rename_i hcond
            rw [Option.some.injEq] at h
            subst h
            simp only [Bool.or_eq_true, decide_eq_true_eq] at hcond
            exact hcond
          · simp at h
        · simp at h
    · simp at h

/-- C8 helper: items already collected survive the rest of the loop. -/
theorem ddgLoop_mono (uddg : String → Option String) (query : String)
    (num_results : Nat) :
    ∀ (results : List RawHit) (acc : List DiscoveryHit) (x : DiscoveryHit),
      x ∈ acc → x ∈ ddgLoop uddg query num_results results acc := by
  intro results
  induction results with
  | nil => intro acc x hx; exact hx
  | cons r rest ih =>
    intro acc x hx
    simp only [ddgLoop]
    cases hk : ddgKeeps uddg query r with
    | none => exact ih acc x hx
    | some hit =>
      dsimp only
      split
      · exact List.mem_append_left _ hx
      · exact ih _ x (List.mem_append_left _ hx)

/-- C8 helper: every item of the returned sequence arises from an anchor the
per-hit processing kept. -/
theorem ddgLoop_sound (uddg : String → Option String) (query : String)
    (num_results : Nat) :
    ∀ (results : List RawHit) (acc : List DiscoveryHit)
      (item : DiscoveryHit),
      item ∈ ddgLoop uddg query num_results results acc →
      item ∈ acc ∨ ∃ r ∈ results, ddgKeeps uddg query r = some item := by
  intro results
  induction results with
  | nil => intro acc item h; exact Or.inl h
  | cons r rest ih =>
    intro acc item h
    simp only [ddgLoop] at h
    cases hk : ddgKeeps uddg query r with
    | none =>
      rw [hk] at h
      rcases ih acc item h with h1 | ⟨r1, hr1, hk1⟩
      · exact Or.inl h1
      · exact Or.inr ⟨r1, List.mem_cons_of_mem _ hr1, hk1⟩
    | some hit =>
      rw [hk] at h
      dsimp only at h
      have hcase : item ∈ acc ++ [hit] ∨
          ∃ r1 ∈ rest, ddgKeeps uddg query r1 = some item := by
        split at h
        · exact Or.inl h
        · rcases ih _ item h with h1 | ⟨r1, hr1, hk1⟩
          · exact Or.inl h1
          · exact Or.inr ⟨r1, hr1, hk1⟩
      rcases hcase with h1 | ⟨r1, hr1, hk1⟩
      · rcases List.mem_append.mp h1 with h2 | h2
        · exact Or.inl h2
        · simp at h2
          subst h2
          exact Or.inr ⟨r, List.mem_cons_self _ _, hk⟩
      · exact Or.inr ⟨r1, List.mem_cons_of_mem _ hr1, hk1⟩

/-- C8 helper: when the returned sequence is shorter than `num_results`, the
collection cap never fired, so every kept anchor's item is in the result. -/
theorem ddgLoop_complete (uddg : String → Option String) (query : String)
    (num_results : Nat) :
    ∀ (results : List RawHit) (acc : List DiscoveryHit),
      (ddgLoop uddg query num_results results acc).length < num_results →
      ∀ r ∈ results, ∀ item, ddgKeeps uddg query r = some item →
        item ∈ ddgLoop uddg query num_results results acc := by
  intro results
  induction results with
  | nil => intro acc _ r hr; simp at hr
  | cons r0 rest ih =>
    intro acc hlen r hr item hki
    simp only [ddgLoop] at hlen ⊢
    cases hk : ddgKeeps uddg query r0 with
    | none =>
      rw [hk] at hlen
      rcases List.mem_cons.mp hr with hr1 | hr1
      · subst hr1
        rw [hki] at hk
        exact absurd hk (by simp)
      · exact ih acc hlen r hr1 item hki
    | some hit =>
      rw [hk] at hlen
      dsimp only at hlen ⊢
      by_cases hstop : num_results ≤ (acc ++ [hit]).length
      · rw [if_pos hstop] at hlen
        omega
      · rw [if_neg hstop] at hlen ⊢
        rcases List.mem_cons.mp hr with hr1 | hr1
        · subst hr1
          rw [hki] at hk
          rw [Option.some.injEq] at hk
          subst hk
          exact ddgLoop_mono uddg query num_results rest _ item
            (List.mem_append_right _ (List.mem_singleton_self _))
        · exact ih _ hlen r hr1 item hki

/-- Counterexample to C8 as stated: the query "one two three" has exactly 3
space-separated terms (not fewer than 3), and the hit ("hello",
"http://x.com/1") matches no topical keyword, so by the claim the hit should
be excluded; the code keeps it, because its broad test counts space
characters (2 here) rather than terms. -/
theorem c8_counterexample :
    specBroadQuery "one two three" = false ∧
    is_relevant "hello" "http://x.com/1" = false ∧
    fetch_news_from_duckduckgo (fun _ => none)
      (fun _ => some [⟨"hello", some "http://x.com/1"⟩]) "one two three" 3
      = [⟨"hello", "http://x.com/1"⟩] := by
  refine ⟨by decide, by decide, by decide⟩

/-- C8 (amended): a parsed hit with a non-empty title and a valid http(s)
URL not pointing back to the search provider is kept by the per-hit filter
if and only if the query's lowercased form contains fewer than 3 space
characters or the hit's lowercased title or URL contains a topical keyword;
every returned item passed this filter, and when the returned sequence is
shorter than `num_results` (the collection cap never fired) every kept hit
of the parsed response appears in it. -/
theorem c8_discovery_filter :
    (∀ (uddg : String → Option String) (net : String → Option (List RawHit))
      (query : String) (num_results : Nat) (item : DiscoveryHit),
      item ∈ fetch_news_from_duckduckgo uddg net query num_results →
      countSpaces (strToLower query) < 3 ∨
        is_relevant item.title item.url = true) ∧
    (∀ (uddg : String → Option String) (net : String → Option (List RawHit))
      (query : String) (num_results : Nat) (results : List RawHit),
      net query = some results →
      (fetch_news_from_duckduckgo uddg net query num_results).length <
        num_results →
      ∀ r ∈ results, ∀ item, ddgKeeps uddg query r = some item →
        item ∈ fetch_news_from_duckduckgo uddg net query num_results) ∧
    (∀ (uddg : String → Option String) (query : String) (r : RawHit)
      (url0 : String), r.href = some url0 →
      strStartsWith url0 "http" = true →
      strContains url0 "duckduckgo.com" = false →
      r.title.isEmpty = false →
      ddgKeeps uddg query r =
        (if countSpaces (strToLower query) < 3 ∨
            is_relevant r.title url0 = true
         then some ⟨r.title, url0⟩ else none)) := by
  refine ⟨?_, ?_, ?_⟩
  · intro uddg net query num_results item h
    unfold fetch_news_from_duckduckgo at h
    cases hn : net query with
    | none => rw [hn] at h; simp at h
    | some results =>
      rw [hn] at h
      rcases ddgLoop_sound uddg query num_results results [] item h with
        h1 | ⟨r, _, hk⟩
      · simp at h1
      · exact ddgKeeps_filter uddg query r item hk
  · intro uddg net query num_results results hn hlen r hr item hki
    unfold fetch_news_from_duckduckgo at hlen ⊢
    rw [hn] at hlen ⊢
    exact ddgLoop_complete uddg query num_results results [] hlen r hr
      item hki
  · intro uddg query r url0 hhref hhttp hddg htitle
    have hred : strStartsWith url0 "https://duckduckgo.com/l/" = false := by
      cases hc : strStartsWith url0 "https://duckduckgo.com/l/"
      · rfl
      · have := strContains_of_prefix url0 "https://duckduckgo.com/l/"
          "duckduckgo.com" hc (by decide)
        rw [this] at hddg
        exact absurd hddg (by simp)
    unfold ddgKeeps
    rw [hhref]
    dsimp only
    simp only [hred, hhttp, hddg, htitle, Bool.not_false, Bool.and_true,
      Bool.true_and, Bool.false_eq_true, if_false, if_true, ite_true,
      ite_false]
    simp only [Bool.or_eq_true, decide_eq_true_eq]

/-- Witness for C8: the filter characterization at a concrete relevant hit,
plus sound and complete membership at a concrete discovery run. -/
theorem c8_discovery_filter_witness :
    (countSpaces (strToLower "quantum news") < 3 ∨
      is_relevant "new ai chips" "http://x.com/ai" = true) ∧
    (⟨"new ai chips", "http://x.com/ai"⟩ : DiscoveryHit) ∈
      fetch_news_from_duckduckgo (fun _ => none)
        (fun _ => some [⟨"new ai chips", some "http://x.com/ai"⟩])
        "quantum news" 3 ∧
    ddgKeeps (fun _ => none) "quantum news"
        ⟨"new ai chips", some "http://x.com/ai"⟩ =
      (if countSpaces (strToLower "quantum news") < 3 ∨
          is_relevant "new ai chips" "http://x.com/ai" = true
       then some ⟨"new ai chips", "http://x.com/ai"⟩ else none) :=
  ⟨c8_discovery_filter.1 (fun _ => none)
      (fun _ => some [⟨"new ai chips", some "http://x.com/ai"⟩])
      "quantum news" 3 ⟨"new ai chips", "http://x.com/ai"⟩ (by decide),
   c8_discovery_filter.2.1 (fun _ => none)
      (fun _ => some [⟨"new ai chips", some "http://x.com/ai"⟩])
      "quantum news" 3 [⟨"new ai chips", some "http://x.com/ai"⟩] rfl
      (by decide) ⟨"new ai chips", some "http://x.com/ai"⟩ (by decide)
      ⟨"new ai chips", "http://x.com/ai"⟩ (by decide),
   c8_discovery_filter.2.2 (fun _ => none) "quantum news"
      ⟨"new ai chips", some "http://x.com/ai"⟩ "http://x.com/ai" rfl
      (by decide) (by decide) (by decide)⟩

/-- C9 helper: one unfolding step of the line splitter. -/
theorem splitLinesAux_cons (cur : List Char) (c : Char) (cs : List Char) :
    splitLinesAux cur (c :: cs) =
      if c = '\n' then cur.reverse :: splitLinesAux [] cs
      else splitLinesAux (c :: cur) cs := rfl

/-- C9 helper: line splitting distributes over appending to a stream that
ends with a newline (the pending line is empty at the boundary). -/
theorem splitLinesAux_append (cs : List Char) :
    cs.getLast? = some '\n' → ∀ cur ts : List Char,
      splitLinesAux cur (cs ++ ts) =
        splitLinesAux cur cs ++ splitLinesAux [] ts := by
  induction cs with
  | nil => intro h; simp at h
  | cons c cs' ih =>
    intro h cur ts
    cases cs' with
    | nil =>
      simp only [List.getLast?_singleton, Option.some.injEq] at h
      subst h
      show cur.reverse :: splitLinesAux [] ts
          = splitLinesAux cur ['\n'] ++ splitLinesAux [] ts
      rw [splitLinesAux_cons, if_pos rfl]
      rfl
    | cons c2 cs'' =>
      have h' : (c2 :: cs'').getLast? = some '\n' := by
        rwa [List.getLast?_cons_cons] at h
      by_cases hc : c = '\n'
      · subst hc
        show cur.reverse :: splitLinesAux [] ((c2 :: cs'') ++ ts)
            = splitLinesAux cur ('\n' :: c2 :: cs'') ++ splitLinesAux [] ts
        rw [ih h' [] ts]
        conv_rhs => rw [splitLinesAux_cons, if_pos rfl]
        rw [List.cons_append]
      · rw [List.cons_append, splitLinesAux_cons, if_neg hc]
        conv_rhs => rw [splitLinesAux_cons, if_neg hc]
        exact ih h' (c :: cur) ts

/-- C9 helper: a newline-free chunk followed by a newline contributes exactly
one line, the pending prefix glued to the chunk. -/
theorem splitLinesAux_line (us : List Char) (h : '\n' ∉ us) :
    ∀ cur : List Char,
      splitLinesAux cur (us ++ ['\n']) = [cur.reverse ++ us] := by
  induction us with
  | nil =>
    intro cur
    rw [List.nil_append, splitLinesAux_cons, if_pos rfl]
    simp [splitLinesAux]
  | cons u us' ih =>
    intro cur
    have hu : u ≠ '\n' := fun he => h (he ▸ List.mem_cons_self _ _)
    have h' : '\n' ∉ us' := fun hc => h (List.mem_cons_of_mem _ hc)
    rw [List.cons_append, splitLinesAux_cons, if_neg hu, ih h' (u :: cur)]
    simp

/-- Counterexample to C9 as stated: a prior ledger file content "a" that
does not end with a newline; appending the URL "b" produces the file
"ab\n", whose reload yields the single entry "ab" — the appended URL "b" is
not present (and neither is "a"). -/
theorem c9_counterexample :
    load_posted_urls (save_posted_url "a" "b") = ["ab"] ∧
    "b" ∉ load_posted_urls (save_posted_url "a" "b") ∧
    "a" ∉ load_posted_urls (save_posted_url "a" "b") := by
  refine ⟨by decide, by decide, by decide⟩

/-- C9 (amended): for every URL without embedded newlines or surrounding
whitespace and every prior ledger file content that is empty or ends with a
newline, appending the URL via `save_posted_url` and reloading via
`load_posted_urls` yields a set containing that URL and every previously
present URL. -/
theorem c9_ledger_roundtrip (content url : String)
    (hend : content = "" ∨ content.data.getLast? = some '\n')
    (hnl : '\n' ∉ url.data) (hstrip : pyStrip url = url) :
    url ∈ load_posted_urls (save_posted_url content url) ∧
    ∀ u ∈ load_posted_urls content,
      u ∈ load_posted_urls (save_posted_url content url) := by
  have hone : ("\n" : String).data = ['\n'] := rfl
  have hdata : (save_posted_url content url).data
      = content.data ++ (url.data ++ ['\n']) := by
    show (content ++ url ++ "\n").data = _
    rw [String.data_append, String.data_append, hone, List.append_assoc]
  have hmk : pyStrip ⟨url.data⟩ = url := hstrip
  rcases hend with hc | hc
  · have hc' : content.data = [] := by rw [hc]
    constructor
    · rw [load_posted_urls, hdata, hc', List.nil_append,
        splitLinesAux_line url.data hnl []]
      simp only [List.reverse_nil, List.nil_append, List.map_cons,
        List.map_nil]
      rw [hmk]
      exact List.mem_singleton_self _
    · intro u hu
      rw [load_posted_urls, hc'] at hu
      simp [splitLinesAux] at hu
  · constructor
    · rw [load_posted_urls, hdata,
        splitLinesAux_append content.data hc [] (url.data ++ ['\n']),
        splitLinesAux_line url.data hnl []]
      simp only [List.reverse_nil, List.nil_append, List.map_append,
        List.map_cons, List.map_nil]
      refine List.mem_append_right _ ?_
      rw [hmk]
      exact List.mem_singleton_self _
    · intro u hu
      rw [load_posted_urls, hdata,
        splitLinesAux_append content.data hc [] (url.data ++ ['\n'])]
      rw [List.map_append]
      exact List.mem_append_left _ hu

/-- Witness for C9: a concrete newline-terminated prior content and a
concrete URL round-trip as amended. -/
theorem c9_ledger_roundtrip_witness :
    "http://b.com" ∈
      load_posted_urls (save_posted_url "http://a.com\n" "http://b.com") ∧
    ∀ u ∈ load_posted_urls "http://a.com\n",
      u ∈ load_posted_urls (save_posted_url "http://a.com\n" "http://b.com") :=
  c9_ledger_roundtrip "http://a.com\n" "http://b.com" (Or.inr (by decide))
    (by decide) (by decide)

end Autoscrap
